import Mathlib

/-!
# Verification of the mako-poker heads-up NLHE solver

A shallow embedding of the solver's core components — the hand evaluator
(`src/game/hand_evaluator.py`, `src/game/hand_rankings.py`), the betting state
machine (`src/game/game_state.py`), the preflop hand bucketing
(`src/abstraction/hand_bucketing.py`), the information-set accumulators
(`src/cfr/information_set.py`, `src/cfr/cfr_plus.py`) and the reservoir buffer
(`src/training/value_network.py`) — together with theorems settling the
specification's claims about them.

Conventions of the embedding:
* Python `int` is modelled as `ℤ` (`Nat` indices as `ℕ`).
* Python floats in the information sets are modelled as exact rationals `ℚ`;
  `int(x)` truncation of a non-negative ratio is modelled as `Int.tdiv`.
* Functions that can raise an exception return `Option`; `none` is the raise.
* The randomness of a shuffled deck is passed in explicitly as an oracle
  argument (the list of cards the shuffled deck would deal).
-/

namespace MakoPoker

/-- A playing card: `rank ∈ 2..14` (11 = J, 12 = Q, 13 = K, 14 = A) and
`suit ∈ 0..3` standing for s, h, d, c (`card.py`; suits are unordered). -/
structure PCard where
  rank : ℤ
  suit : ℕ
deriving DecidableEq, Repr

/-- Hand categories, `HandType` in `hand_rankings.py`. -/
inductive HandType where
  | highCard
  | onePair
  | twoPair
  | threeOfAKind
  | straight
  | flush
  | fullHouse
  | fourOfAKind
  | straightFlush
deriving DecidableEq, Repr

/-- `HandRankingConstants.HAND_TYPE_BASE_RANKS` from `hand_rankings.py`. -/
def baseRank : HandType → ℤ
  | .highCard => 0
  | .onePair => 1277
  | .twoPair => 4137
  | .threeOfAKind => 4995
  | .straight => 5853
  | .flush => 5863
  | .fullHouse => 7140
  | .fourOfAKind => 7296
  | .straightFlush => 7452

/-- Result of hand evaluation (`HandResult` in `hand_evaluator.py`; the
human-readable `description` field is not modelled). -/
structure HandResult where
  absoluteRank : ℤ
  handType : HandType
deriving DecidableEq, Repr

/-- Python's `sorted(...)` on integers: stable ascending sort. -/
def sortAsc (l : List ℤ) : List ℤ := l.insertionSort (· ≤ ·)

/-- Python's `sorted(..., reverse=True)` on integers: stable descending sort. -/
def sortDesc (l : List ℤ) : List ℤ := l.insertionSort (· ≥ ·)

/-- `HandEvaluator._encode_card_values`: base-15 encoding of a value list,
most significant digit first (`encoded += v * 15 ** (len - 1 - i)`). -/
def encodeCardValues : List ℤ → ℤ
  | [] => 0
  | v :: vs => v * 15 ^ vs.length + encodeCardValues vs

/-- `HandEvaluator._normalize_to_range`. The Python code computes
`target_min + int(proportion * range_size)` with
`proportion = (encoded - min) / (max - min)` in floating point; `int(·)`
truncates toward zero, which is `Int.tdiv` on the exact ratio. The
`max_possible < min_possible` branch raises `ValueError` in the source; no
call site reaches it (every caller passes fixed constants with min < max),
and it is collapsed with the `max_possible == min_possible` branch here. -/
def normalizeToRange (encoded minP maxP tmin tmax : ℤ) : ℤ :=
  if maxP ≤ minP then tmin
  else tmin + Int.tdiv ((encoded - minP) * (tmax - tmin)) (maxP - minP)

/-- `HandEvaluator._calculate_high_card_rank`. -/
def calculateHighCardRank (values : List ℤ) : ℤ :=
  normalizeToRange (encodeCardValues (sortDesc values))
    (encodeCardValues [7, 5, 4, 3, 2]) (encodeCardValues [14, 13, 12, 11, 9])
    1 1277

/-- `HandEvaluator._calculate_one_pair_rank`. -/
def calculateOnePairRank (pairValue : ℤ) (kickers : List ℤ) : ℤ :=
  normalizeToRange (encodeCardValues (pairValue :: sortDesc (kickers.take 3)))
    (encodeCardValues [2, 5, 4, 3]) (encodeCardValues [14, 13, 12, 11])
    1 2860

/-- `HandEvaluator._calculate_two_pair_rank`. -/
def calculateTwoPairRank (highPair lowPair kicker : ℤ) : ℤ :=
  normalizeToRange (encodeCardValues [highPair, lowPair, kicker])
    (encodeCardValues [3, 2, 4]) (encodeCardValues [14, 13, 12])
    1 858

/-- `HandEvaluator._calculate_three_of_kind_rank`. -/
def calculateThreeOfKindRank (tripsValue : ℤ) (kickers : List ℤ) : ℤ :=
  normalizeToRange (encodeCardValues (tripsValue :: sortDesc (kickers.take 2)))
    (encodeCardValues [2, 5, 4]) (encodeCardValues [14, 13, 12])
    1 858

/-- `HandEvaluator._calculate_straight_rank`. The source raises `ValueError`
unless `5 ≤ high_card ≤ 14`; every call site passes the high card of a
recognized straight, which satisfies the guard. -/
def calculateStraightRank (highCard : ℤ) : ℤ :=
  if highCard = 5 then 1 else highCard - 4

/-- `HandEvaluator._calculate_flush_rank` (same constants as high card). -/
def calculateFlushRank (values : List ℤ) : ℤ :=
  normalizeToRange (encodeCardValues (sortDesc values))
    (encodeCardValues [7, 5, 4, 3, 2]) (encodeCardValues [14, 13, 12, 11, 9])
    1 1277

/-- `HandEvaluator._calculate_full_house_rank`. -/
def calculateFullHouseRank (trips pair : ℤ) : ℤ :=
  normalizeToRange (encodeCardValues [trips, pair])
    (encodeCardValues [2, 3]) (encodeCardValues [14, 13]) 1 156

/-- `HandEvaluator._calculate_four_of_kind_rank`. -/
def calculateFourOfKindRank (quads kicker : ℤ) : ℤ :=
  normalizeToRange (encodeCardValues [quads, kicker])
    (encodeCardValues [2, 3]) (encodeCardValues [14, 13]) 1 156

/-- `HandEvaluator._calculate_straight_flush_rank` (same guard remark as
`calculateStraightRank`). -/
def calculateStraightFlushRank (highCard : ℤ) : ℤ :=
  if highCard = 5 then 1 else highCard - 4

/-- `HandEvaluator._check_straight`: 5 consecutive distinct values, or the
wheel A-2-3-4-5. `len(set(·))` is the number of distinct values. -/
def checkStraight (values : List ℤ) : Bool :=
  let s := sortAsc values
  (s.getLastD 0 - s.headD 0 == 4 && s.dedup.length == 5) || s == [2, 3, 4, 5, 14]

/-- Helper for `firstKeys`: traverse the list keeping the values not seen
before, in order. -/
def firstKeysAux : List ℤ → List ℤ → List ℤ
  | [], _ => []
  | v :: vs, seen =>
      if v ∈ seen then firstKeysAux vs seen
      else v :: firstKeysAux vs (v :: seen)

/-- The keys of Python's `value_counts` dict in insertion order: the distinct
values of the list in order of first occurrence. -/
def firstKeys (values : List ℤ) : List ℤ := firstKeysAux values []

/-- `_find_count`: the first dict key whose multiplicity is `count`. -/
def findCount (values : List ℤ) (count : ℕ) : Option ℤ :=
  (firstKeys values).find? (fun v => values.count v == count)

/-- The categorization cascade of `HandEvaluator._evaluate_five_cards`
(lines 95–251), as a function of the ascending-sorted card values and the
flush flag: after computing `values` and `is_flush`, the source depends on
the cards only through them. -/
def evalFrom (values : List ℤ) (isFlush : Bool) : HandResult :=
  let isStraight := checkStraight values
  let isWheel := values == [2, 3, 4, 5, 14]
  if isFlush && isStraight then
    let highCard := if isWheel then 5 else values.getLastD 0
    ⟨baseRank .straightFlush + calculateStraightFlushRank highCard, .straightFlush⟩
  else
    match findCount values 4 with
    | some four =>
        let kicker := (values.filter (fun v => v ≠ four)).headD 0
        ⟨baseRank .fourOfAKind + calculateFourOfKindRank four kicker, .fourOfAKind⟩
    | none =>
      match findCount values 3, findCount values 2 with
      | some trips, some pair =>
          ⟨baseRank .fullHouse + calculateFullHouseRank trips pair, .fullHouse⟩
      | threeOfKind, _ =>
        if isFlush then
          ⟨baseRank .flush + calculateFlushRank values, .flush⟩
        else if isStraight then
          let highCard := if isWheel then 5 else values.getLastD 0
          ⟨baseRank .straight + calculateStraightRank highCard, .straight⟩
        else
          match threeOfKind with
          | some trips =>
              let kickers := sortDesc (values.filter (fun v => v ≠ trips))
              ⟨baseRank .threeOfAKind + calculateThreeOfKindRank trips kickers,
                .threeOfAKind⟩
          | none =>
            let pairs :=
              sortDesc ((firstKeys values).filter (fun v => values.count v == 2))
            if pairs.length == 2 then
              let kicker := (values.filter (fun v => ¬ v ∈ pairs)).headD 0
              ⟨baseRank .twoPair +
                calculateTwoPairRank (pairs.headD 0) (pairs.tail.headD 0) kicker,
                .twoPair⟩
            else if pairs.length == 1 then
              let kickers := sortDesc (values.filter (fun v => v ≠ pairs.headD 0))
              ⟨baseRank .onePair + calculateOnePairRank (pairs.headD 0) kickers,
                .onePair⟩
            else
              ⟨calculateHighCardRank values, .highCard⟩

/-- The ascending-sorted rank values of a card list
(`values = sorted([c.rank.value for c in cards])`). -/
def cardValues (cards : List PCard) : List ℤ :=
  sortAsc (cards.map PCard.rank)

/-- `is_flush = len(set(suits)) == 1`. -/
def isFlushCards (cards : List PCard) : Bool :=
  (cards.map PCard.suit).dedup.length == 1

/-- `HandEvaluator._evaluate_five_cards` on a concrete 5-card list. -/
def evaluateFiveCards (cards : List PCard) : HandResult :=
  evalFrom (cardValues cards) (isFlushCards cards)

/-- `itertools.combinations(l, n)` in the same order. -/
def combos {α : Type} : ℕ → List α → List (List α)
  | 0, _ => [[]]
  | _ + 1, [] => []
  | n + 1, x :: xs => ((combos n xs).map (fun c => x :: c)) ++ combos (n + 1) xs

/-- `HandEvaluator.evaluate`: best 5-card subhand of 5–7 cards. `none` models
the `ValueError` raised when the card count is outside 5..7 (the
`RuntimeError('No valid hand found')` branch is unreachable: with 5–7 cards
there is at least one 5-combination). Ties keep the first combination, as in
`if result > best_result`. -/
def evaluate (holeCards communityCards : List PCard) : Option HandResult :=
  let allCards := holeCards ++ communityCards
  if 5 ≤ allCards.length ∧ allCards.length ≤ 7 then
    match (combos 5 allCards).map evaluateFiveCards with
    | [] => none
    | r :: rs =>
        some (rs.foldl
          (fun best r => if r.absoluteRank > best.absoluteRank then r else best) r)
  else none

/-! ## Game state (`game_state.py`) -/

/-- Betting streets (`Street` in `game_state.py`). -/
inductive Street where
  | preflop
  | flop
  | turn
  | river
deriving DecidableEq, Repr

/-- `Street.next`: the next street, `none` at the river. -/
def Street.next : Street → Option Street
  | .preflop => some .flop
  | .flop => some .turn
  | .turn => some .river
  | .river => none

/-- Player actions (`action.py`): `bet` carries the chips going in, `raiseTo`
the new total commitment for the round, `allIn` the chips going in. -/
inductive Action where
  | fold
  | check
  | call
  | bet (amount : ℤ)
  | raiseTo (amount : ℤ)
  | allIn (amount : ℤ)
deriving DecidableEq, Repr

/-- Python two-element list indexing `xs[i]` for a player index (0 or 1). -/
def getP (pair : ℤ × ℤ) (i : ℕ) : ℤ :=
  if i = 0 then pair.1 else pair.2

/-- Python two-element list update `xs[i] = v` for a player index (0 or 1). -/
def setP (pair : ℤ × ℤ) (i : ℕ) (v : ℤ) : ℤ × ℤ :=
  if i = 0 then (v, pair.2) else (pair.1, v)

/-- The `GameState` dataclass of `game_state.py`. `winner` is −1 while the
hand runs, 0/1 for a player win, 2 for a tie. -/
structure GameState where
  holeCards : List PCard × List PCard
  communityCards : List PCard
  pot : ℤ
  playerStacks : ℤ × ℤ
  currentPlayer : ℕ
  street : Street
  actionHistory : List Action
  betsThisRound : ℤ × ℤ
  isTerminal : Bool
  winner : ℤ
  bigBlind : ℤ
  facingBet : Bool
deriving DecidableEq, Repr

/-- `GameState.new_hand`: post the blinds (SB = `big_blind // 2`, Python floor
division, is `Int.fdiv`), player 0 the small blind acting first, facing the
big blind. -/
def newHand (holeCards : List PCard × List PCard) (startingStacks : ℤ × ℤ)
    (bigBlind : ℤ) : GameState :=
  let smallBlind := Int.fdiv bigBlind 2
  { holeCards := holeCards
    communityCards := []
    pot := smallBlind + bigBlind
    playerStacks := (startingStacks.1 - smallBlind, startingStacks.2 - bigBlind)
    currentPlayer := 0
    street := .preflop
    actionHistory := []
    betsThisRound := (smallBlind, bigBlind)
    isTerminal := false
    winner := -1
    bigBlind := bigBlind
    facingBet := true }

/-- `GameState._get_min_raise` (always the big blind). -/
def GameState.getMinRaise (s : GameState) : ℤ := s.bigBlind

/-- `GameState.get_legal_actions`, in source order. -/
def GameState.getLegalActions (s : GameState) : List Action :=
  if s.isTerminal then []
  else
    let player := s.currentPlayer
    let myStack := getP s.playerStacks player
    let myBet := getP s.betsThisRound player
    let oppBet := getP s.betsThisRound (1 - player)
    let toCall := oppBet - myBet
    (if toCall > 0 then [Action.fold] else []) ++
    (if toCall = 0 then [Action.check] else []) ++
    (if toCall > 0 ∧ myStack > 0 then
      let callAmount := min toCall myStack
      if callAmount < myStack then [Action.call] else [Action.allIn callAmount]
     else []) ++
    (let minRaise := s.getMinRaise
     if myStack > toCall then
       if toCall = 0 then
         (if myStack ≥ minRaise then [Action.bet minRaise] else []) ++
         (if myStack > minRaise then [Action.allIn myStack] else [])
       else
         let raiseTotal := oppBet + minRaise
         (if myStack ≥ raiseTotal - myBet then [Action.raiseTo raiseTotal] else []) ++
         (if myStack > toCall then [Action.allIn myStack] else [])
     else [])

/-- `GameState._is_round_complete_after_check`. -/
def GameState.isRoundCompleteAfterCheck (s : GameState) : Bool :=
  if s.street = .preflop then s.currentPlayer == 1 && !s.facingBet
  else s.currentPlayer == 1

/-- `GameState._showdown`: evaluate both hands on the board; `none` models the
`ValueError` the evaluator raises when hole + community has fewer than 5
cards. -/
def GameState.showdown (s : GameState) : Option GameState :=
  let s1 := { s with isTerminal := true }
  match evaluate s.holeCards.1 s.communityCards,
        evaluate s.holeCards.2 s.communityCards with
  | some hand0, some hand1 =>
      some { s1 with winner :=
        if hand0.absoluteRank > hand1.absoluteRank then 0
        else if hand1.absoluteRank > hand0.absoluteRank then 1
        else 2 }
  | _, _ => none

/-- `GameState._run_out_board`: deal the remaining community cards from a
fresh shuffled deck excluding all known cards, then showdown. The shuffled
deck is the oracle `runout`; `none` on a short oracle models the deck's
`ValueError` (unreachable with a real 52-card deck). -/
def GameState.runOutBoard (s : GameState) (runout : List PCard) :
    Option GameState :=
  let cardsNeeded : ℤ := 5 - s.communityCards.length
  if cardsNeeded > 0 then
    if runout.length < cardsNeeded.toNat then none
    else
      GameState.showdown
        { s with communityCards :=
            s.communityCards ++ runout.take cardsNeeded.toNat }
  else s.showdown

/-- `GameState._advance_street`: reset the round, BB first to act; run out the
board if a stack is empty; showdown after the river. -/
def GameState.advanceStreet (s : GameState) (runout : List PCard) :
    Option GameState :=
  let s1 := { s with betsThisRound := (0, 0), facingBet := false,
                     currentPlayer := 1 }
  if s1.playerStacks.1 = 0 ∨ s1.playerStacks.2 = 0 then s1.runOutBoard runout
  else
    match s1.street.next with
    | none => s1.showdown
    | some nextStreet => some { s1 with street := nextStreet }

/-- `GameState.apply_action`: the pure reducer (the source deep-copies and
mutates the copy; exceptions escaping it are `none`). The `runout` oracle is
threaded to `_run_out_board`. -/
def GameState.applyAction (s : GameState) (a : Action) (runout : List PCard) :
    Option GameState :=
  let player := s.currentPlayer
  let opponent := 1 - player
  let myBet := getP s.betsThisRound player
  let oppBet := getP s.betsThisRound opponent
  let toCall := oppBet - myBet
  let s0 := { s with actionHistory := s.actionHistory ++ [a] }
  match a with
  | .fold => some { s0 with isTerminal := true, winner := (opponent : ℤ) }
  | .check =>
      if s.isRoundCompleteAfterCheck then s0.advanceStreet runout
      else some { s0 with currentPlayer := opponent }
  | .call =>
      let callAmount := min toCall (getP s.playerStacks player)
      let s1 := { s0 with
        playerStacks := setP s0.playerStacks player (getP s0.playerStacks player - callAmount)
        pot := s0.pot + callAmount
        betsThisRound := setP s0.betsThisRound player (myBet + callAmount) }
      s1.advanceStreet runout
  | .bet amount =>
      let s1 := { s0 with
        playerStacks := setP s0.playerStacks player (getP s0.playerStacks player - amount)
        pot := s0.pot + amount
        betsThisRound := setP s0.betsThisRound player (myBet + amount) }
      some { s1 with currentPlayer := opponent, facingBet := true }
  | .raiseTo amount =>
      let amountToPot := amount - myBet
      let s1 := { s0 with
        playerStacks := setP s0.playerStacks player (getP s0.playerStacks player - amountToPot)
        pot := s0.pot + amountToPot
        betsThisRound := setP s0.betsThisRound player (myBet + amountToPot) }
      some { s1 with currentPlayer := opponent, facingBet := true }
  | .allIn amount =>
      let s1 := { s0 with
        playerStacks := setP s0.playerStacks player (getP s0.playerStacks player - amount)
        pot := s0.pot + amount
        betsThisRound := setP s0.betsThisRound player (myBet + amount) }
      if getP s1.betsThisRound player > oppBet then
        some { s1 with currentPlayer := opponent, facingBet := true }
      else s1.advanceStreet runout

/-- Apply a sequence of actions (empty deck oracle: none of the traces we
evaluate reach an all-in run-out). -/
def applyActions (s : GameState) (acts : List Action) : Option GameState :=
  acts.foldlM (fun st a => st.applyAction a []) s

/-- States reachable from an initial state by `apply_action` steps (any
action, any deck oracle). -/
inductive Reachable (init : GameState) : GameState → Prop where
  | refl : Reachable init init
  | step {s s' : GameState} {a : Action} {runout : List PCard} :
      Reachable init s → s.applyAction a runout = some s' → Reachable init s'

/-! ## Preflop hand bucketing (`hand_bucketing.py`) -/

/-- The 169-entry canonical preflop ordering (the `hand_rankings` list in
`HandBucketing._build_preflop_table`), transcribed as
(high rank, low rank, suited) triples; pair entries carry `false`. -/
def handRankings : List (ℤ × ℤ × Bool) := [
    (14, 14, false), (13, 13, false), (12, 12, false), (14, 13, true), (11, 11, false),
    (14, 12, true), (13, 12, true), (14, 11, true), (13, 11, true), (10, 10, false),
    (14, 13, false), (14, 10, true), (12, 11, true), (13, 10, true), (12, 10, true),
    (11, 10, true), (9, 9, false), (14, 12, false), (14, 9, true), (13, 12, false),
    (8, 8, false), (13, 9, true), (10, 9, true), (14, 8, true), (12, 9, true),
    (11, 9, true), (14, 11, false), (14, 5, true), (7, 7, false), (14, 7, true),
    (13, 11, false), (14, 4, true), (14, 3, true), (14, 6, true), (12, 11, false),
    (6, 6, false), (13, 8, true), (10, 8, true), (14, 2, true), (9, 8, true),
    (11, 8, true), (14, 10, false), (12, 8, true), (13, 7, true), (13, 10, false),
    (5, 5, false), (11, 10, false), (8, 7, true), (12, 10, false), (4, 4, false),
    (3, 3, false), (2, 2, false), (13, 6, true), (9, 7, true), (13, 5, true),
    (7, 6, true), (10, 7, true), (13, 4, true), (13, 3, true), (13, 2, true),
    (12, 7, true), (8, 6, true), (6, 5, true), (11, 7, true), (5, 4, true),
    (12, 6, true), (7, 5, true), (9, 6, true), (12, 5, true), (6, 4, true),
    (12, 4, true), (12, 3, true), (10, 9, false), (10, 6, true), (12, 2, true),
    (14, 9, false), (5, 3, true), (8, 5, true), (11, 6, true), (11, 9, false),
    (13, 9, false), (11, 5, true), (12, 9, false), (4, 3, true), (7, 4, true),
    (11, 4, true), (11, 3, true), (9, 5, true), (11, 2, true), (6, 3, true),
    (14, 8, false), (5, 2, true), (10, 5, true), (8, 4, true), (10, 4, true),
    (10, 3, true), (4, 2, true), (10, 2, true), (9, 8, false), (10, 8, false),
    (14, 5, false), (14, 7, false), (7, 3, true), (14, 4, false), (3, 2, true),
    (9, 4, true), (9, 3, true), (11, 8, false), (14, 3, false), (6, 2, true),
    (9, 2, true), (13, 8, false), (14, 6, false), (8, 7, false), (12, 8, false),
    (8, 3, true), (14, 2, false), (8, 2, true), (9, 7, false), (7, 2, true),
    (7, 6, false), (13, 7, false), (6, 5, false), (10, 7, false), (13, 6, false),
    (8, 6, false), (5, 4, false), (13, 5, false), (11, 7, false), (7, 5, false),
    (12, 7, false), (13, 4, false), (13, 3, false), (9, 6, false), (13, 2, false),
    (6, 4, false), (12, 6, false), (5, 3, false), (8, 5, false), (10, 6, false),
    (12, 5, false), (4, 3, false), (12, 4, false), (12, 3, false), (7, 4, false),
    (12, 2, false), (11, 6, false), (6, 3, false), (11, 5, false), (9, 5, false),
    (5, 2, false), (11, 4, false), (11, 3, false), (4, 2, false), (11, 2, false),
    (8, 4, false), (10, 5, false), (10, 4, false), (3, 2, false), (10, 3, false),
    (7, 3, false), (10, 2, false), (6, 2, false), (9, 4, false), (9, 3, false),
    (9, 2, false), (8, 3, false), (8, 2, false), (7, 2, false)]

/-- The preflop table lookup. `_build_preflop_table` stores
`table[hand] = (idx * B) // 169` for each enumerated hand and
`_preflop_bucket` reads `table.get(hand_str, 0)`; equivalently, the bucket is
`(idx * B) // 169` at the key's index in the list, and 0 for an absent key.
`B` is `self._preflop_buckets = min(preflop_buckets, 169)`. -/
def tableBucket (preflopBuckets : ℕ) (key : ℤ × ℤ × Bool) : ℕ :=
  match handRankings.findIdx? (fun h => h == key) with
  | some idx => idx * min preflopBuckets 169 / 169
  | none => 0

/-- The canonical form built by `HandBucketing._preflop_bucket`: order the two
hole ranks descending (swap when `r1.value < r2.value`); a pair's hand string
has no suited suffix (recorded `false`), otherwise the flag records equal
suits. -/
def canonicalKey (c1 c2 : PCard) : ℤ × ℤ × Bool :=
  let d1 := if c1.rank < c2.rank then c2 else c1
  let d2 := if c1.rank < c2.rank then c1 else c2
  if d1.rank = d2.rank then (d1.rank, d2.rank, false)
  else (d1.rank, d2.rank, decide (d1.suit = d2.suit))

/-- `HandBucketing._preflop_bucket` (also the value of
`get_bucket(hole_cards, board)` when `board` is `None` or empty, lines
58–59); `none` models the `ValueError` for a hole-card list that does not
have exactly two cards. -/
def preflopBucket (preflopBuckets : ℕ) (cards : List PCard) : Option ℕ :=
  match cards with
  | [c1, c2] => some (tableBucket preflopBuckets (canonicalKey c1 c2))
  | _ => none

/-! ## Information sets and the CFR+ updates (`information_set.py`,
`cfr_plus.py`) -/

/-- `np.dot` on two equal-length vectors. -/
def dotQ (a b : List ℚ) : ℚ := (List.zipWith (fun x y => x * y) a b).sum

/-- The `InformationSet` class: `num_actions` is fixed at creation and both
accumulator vectors have that length. -/
structure InformationSet where
  numActions : ℕ
  cumulativeRegrets : List ℚ
  strategySum : List ℚ
deriving DecidableEq, Repr

/-- `InformationSet._normalize`: scale to sum 1, uniform over `num_actions`
when the sum is not positive. -/
def InformationSet.normalize (infoset : InformationSet) (strategy : List ℚ) :
    List ℚ :=
  let total := strategy.sum
  if total > 0 then strategy.map (fun x => x / total)
  else List.replicate infoset.numActions ((1 : ℚ) / infoset.numActions)

/-- A fresh information set (`__init__`): zero vectors of length
`num_actions`. -/
def InformationSet.create (numActions : ℕ) : InformationSet :=
  ⟨numActions, List.replicate numActions 0, List.replicate numActions 0⟩

/-- `InformationSet.get_strategy`: returns the regret-matching strategy and
the mutated information set (the source adds `reach_probability * strategy`
into `strategy_sum` in place before returning). -/
def InformationSet.getStrategy (infoset : InformationSet)
    (reachProbability : ℚ) : List ℚ × InformationSet :=
  let strategy :=
    infoset.normalize (infoset.cumulativeRegrets.map (fun r => max 0 r))
  (strategy,
    { infoset with strategySum :=
        (List.zipWith (fun s x => s + reachProbability * x)
          infoset.strategySum strategy) })

/-- `InformationSet.get_average_strategy`. -/
def InformationSet.getAverageStrategy (infoset : InformationSet) : List ℚ :=
  infoset.normalize infoset.strategySum

/-- `InformationSet.update_regrets`: recompute the regret-matching strategy,
add `counterfactual_reach * (u - dot(strategy, u))` to the cumulative
regrets, then clamp every entry at zero (the CFR+ floor). -/
def InformationSet.updateRegrets (infoset : InformationSet)
    (actionUtilities : List ℚ) (counterfactualReach : ℚ) : InformationSet :=
  let strategy :=
    infoset.normalize (infoset.cumulativeRegrets.map (fun r => max 0 r))
  let expectedUtility := dotQ strategy actionUtilities
  let updated := List.zipWith
      (fun r u => r + counterfactualReach * (u - expectedUtility))
      infoset.cumulativeRegrets actionUtilities
  { infoset with cumulativeRegrets := updated.map (fun x => max 0 x) }

/-- The inline regret update of `CFRPlusSolver._cfr_traverse` (lines
168–184): `node_utility = dot(strategy, action_utilities)`;
`cumulative_regrets += cf_reach * (action_utilities - node_utility)`; then
the CFR+ floor `np.maximum(0, ·)`. `strategy` is the vector
`infoset.get_strategy` returned earlier in the node visit. -/
def cfrTraverseRegretUpdate (cumulativeRegrets strategy actionUtilities : List ℚ)
    (cfReach : ℚ) : List ℚ :=
  let nodeUtility := dotQ strategy actionUtilities
  (List.zipWith (fun r u => r + cfReach * (u - nodeUtility))
    cumulativeRegrets actionUtilities).map (fun x => max 0 x)

/-! ## Reservoir buffer (`value_network.py`) -/

/-- The `ReservoirBuffer` class: a bounded sample list plus the lifetime
count of offered samples. -/
structure ReservoirBuffer (α : Type) where
  maxSize : ℕ
  buffer : List α
  count : ℕ
deriving DecidableEq, Repr

/-- `ReservoirBuffer.__init__`. -/
def ReservoirBuffer.empty (α : Type) (maxSize : ℕ) : ReservoirBuffer α :=
  ⟨maxSize, [], 0⟩

/-- `ReservoirBuffer.add`: increment the offer count; append while below
capacity; otherwise overwrite `buffer[idx]` only when `idx < max_size`, where
`idx = random.randint(0, count - 1)` — uniform over `[0, count)` after the
increment — is passed in as the oracle `randIdx`. -/
def ReservoirBuffer.add {α : Type} (rb : ReservoirBuffer α) (sample : α)
    (randIdx : ℕ) : ReservoirBuffer α :=
  let newCount := rb.count + 1
  if rb.buffer.length < rb.maxSize then
    { rb with count := newCount, buffer := rb.buffer ++ [sample] }
  else if randIdx < rb.maxSize then
    { rb with count := newCount, buffer := rb.buffer.set randIdx sample }
  else
    { rb with count := newCount }

/-- Offer a whole stream of (sample, oracle index) pairs in order. -/
def ReservoirBuffer.addSeq {α : Type} (rb : ReservoirBuffer α)
    (offers : List (α × ℕ)) : ReservoirBuffer α :=
  offers.foldl (fun b p => b.add p.1 p.2) rb

/-! ## Claims about the betting state machine -/

/-- **C1** (code-bug evidence). The claim: a check completes the round iff
the opponent has already acted this round without a bet pending (preflop
exception: BB closes by checking after an SB limp), so `Call, Check` from the
initial state (big blind 2, stacks 200) gives a non-terminal state on the
**Flop** with pot 4, bets [0,0], player 1 to act, no bet pending. In the
code, the call alone already advances preflop → flop
(`apply_action`: "After a call, round is complete"), and
`_is_round_complete_after_check` returns `current_player == 1` postflop, so
the big blind's *first* check on the flop closes that round as well: the
state after `Call, Check` is on the **Turn**. All other claimed fields hold. -/
theorem claim_C1_call_check_reaches_turn :
    (applyActions (newHand ([⟨14, 0⟩, ⟨13, 0⟩], [⟨12, 1⟩, ⟨11, 1⟩]) (200, 200) 2)
        [.call, .check]).map
        (fun s => (s.street, s.pot, s.betsThisRound, s.currentPlayer,
                   s.facingBet, s.isTerminal))
      = some (.turn, 4, (0, 0), 1, false, false) := by decide

/-- **C2** (code-bug evidence). The claim: community-card count matches the
street (0/3/4/5 on Preflop/Flop/Turn/River) in every reachable state. In the
code `_advance_street` never deals board cards: after the preflop call the
state is on the Flop with an *empty* board, and playing the hand to its
river showdown by checks makes `apply_action` raise, because
`HandEvaluator.evaluate` receives only the two hole cards. -/
theorem claim_C2_flop_board_empty :
    ((applyActions (newHand ([⟨14, 0⟩, ⟨13, 0⟩], [⟨12, 1⟩, ⟨11, 1⟩]) (200, 200) 2)
        [.call]).map (fun s => (s.street, s.communityCards))
      = some (.flop, [])) ∧
    applyActions (newHand ([⟨14, 0⟩, ⟨13, 0⟩], [⟨12, 1⟩, ⟨11, 1⟩]) (200, 200) 2)
        [.call, .check, .check, .check] = none := by decide

/-- **C3** (counterexample). The claim: applying an action outside the legal
set fails with an `IllegalAction` error. At the initial state (facing the big
blind) a check is not in the legal-action list, yet `apply_action` applies it
without any error. -/
theorem claim_C3_counterexample :
    Action.check ∉ (newHand ([⟨14, 0⟩, ⟨13, 0⟩], [⟨12, 1⟩, ⟨11, 1⟩])
        (200, 200) 2).getLegalActions ∧
    (newHand ([⟨14, 0⟩, ⟨13, 0⟩], [⟨12, 1⟩, ⟨11, 1⟩]) (200, 200) 2).applyAction
        .check [] ≠ none := by decide

/-- **C3** (amended). `apply_action` performs no legality validation: an
action outside the legal set is applied silently and without error — a check
while facing the big blind merely passes the turn, and a bet exceeding the
stack is committed, leaving a negative stack. (The remaining part of the
claim holds: the input state is not poisoned — `apply_action` copies its
input and returns a fresh state.) -/
theorem claim_C3_no_validation :
    ((newHand ([⟨14, 0⟩, ⟨13, 0⟩], [⟨12, 1⟩, ⟨11, 1⟩]) (200, 200) 2).getLegalActions
      = [.fold, .call, .raiseTo 4, .allIn 199]) ∧
    ((newHand ([⟨14, 0⟩, ⟨13, 0⟩], [⟨12, 1⟩, ⟨11, 1⟩]) (200, 200) 2).applyAction
        .check []).map (fun s => (s.currentPlayer, s.isTerminal, s.street))
      = some (1, false, .preflop) ∧
    ((newHand ([⟨14, 0⟩, ⟨13, 0⟩], [⟨12, 1⟩, ⟨11, 1⟩]) (200, 200) 2).applyAction
        (.bet 1000000) []).map (fun s => getP s.playerStacks 0)
      = some (-999801) := by decide

/-! ## Claims about the CFR accumulators -/

/-- **C6**. CFR+ regret floor: after `InformationSet.update_regrets` and
after the inline regret update in `CFRPlusSolver._cfr_traverse` — both of
which add `counterfactual_reach * (u - strategy·u)` and then clamp at zero —
every entry of the cumulative-regret vector is non-negative. -/
theorem claim_C6_regret_floor (infoset : InformationSet)
    (actionUtilities strategy : List ℚ) (counterfactualReach cfReach x : ℚ) :
    (x ∈ (infoset.updateRegrets actionUtilities counterfactualReach).cumulativeRegrets
      → 0 ≤ x) ∧
    (x ∈ cfrTraverseRegretUpdate infoset.cumulativeRegrets strategy
          actionUtilities cfReach
      → 0 ≤ x) := by
  constructor
  · intro hx
    unfold InformationSet.updateRegrets at hx
    obtain ⟨y, -, rfl⟩ := List.mem_map.mp hx
    exact le_max_left 0 y
  · intro hx
    unfold cfrTraverseRegretUpdate at hx
    obtain ⟨y, -, rfl⟩ := List.mem_map.mp hx
    exact le_max_left 0 y

/-- Witness for C6: concrete update at a fresh one-action information set. -/
theorem claim_C6_regret_floor_witness :
    ((0 : ℚ) ∈ ((InformationSet.create 1).updateRegrets [0] 0).cumulativeRegrets
      ∧ (0 : ℚ) ≤ 0) ∧
    ((0 : ℚ) ∈ cfrTraverseRegretUpdate [0] [1] [0] 0 ∧ (0 : ℚ) ≤ 0) := by
  have hmem1 : (0 : ℚ) ∈
      ((InformationSet.create 1).updateRegrets [0] 0).cumulativeRegrets := by
    norm_num [InformationSet.create, InformationSet.updateRegrets,
      InformationSet.normalize, dotQ]
  have hmem2 : (0 : ℚ) ∈ cfrTraverseRegretUpdate [0] [1] [0] 0 := by
    norm_num [cfrTraverseRegretUpdate, dotQ]
  exact ⟨⟨hmem1, (claim_C6_regret_floor (InformationSet.create 1) [0] [1] 0 0 0).1
            hmem1⟩,
         ⟨hmem2, (claim_C6_regret_floor ⟨1, [0], [0]⟩ [0] [1] 0 0 0).2 hmem2⟩⟩

/-- **C10**. `InformationSet.get_strategy` is not observation-pure: it
returns `normalize(max(cumulative_regrets, 0))` (uniform when the
positive-regret sum is zero — that is what `normalize` does on a
non-positive sum) and as a side effect adds `reach · σ` into `strategy_sum`,
leaving `cumulative_regrets` and `num_actions` unchanged; the closing
conjunct exhibits an information set whose reported average strategy changes
after a mere query. -/
theorem claim_C10_get_strategy_side_effect (infoset : InformationSet)
    (reach : ℚ) :
    (infoset.getStrategy reach).1
      = infoset.normalize (infoset.cumulativeRegrets.map (fun r => max 0 r)) ∧
    (infoset.getStrategy reach).2.strategySum
      = List.zipWith (fun s x => s + reach * x) infoset.strategySum
          (infoset.getStrategy reach).1 ∧
    (infoset.getStrategy reach).2.cumulativeRegrets
      = infoset.cumulativeRegrets ∧
    (infoset.getStrategy reach).2.numActions = infoset.numActions ∧
    ((⟨2, [1, 0], [0, 0]⟩ : InformationSet).getAverageStrategy
      ≠ ((⟨2, [1, 0], [0, 0]⟩ : InformationSet).getStrategy 1).2.getAverageStrategy) := by
  refine ⟨rfl, rfl, rfl, rfl, ?_⟩
  norm_num [InformationSet.getStrategy, InformationSet.getAverageStrategy,
    InformationSet.normalize, List.replicate]

/-- Witness for C10: the side-effect equations at a fresh two-action
information set queried with reach probability 1. -/
theorem claim_C10_get_strategy_side_effect_witness :
    ((InformationSet.create 2).getStrategy 1).2.cumulativeRegrets
        = (InformationSet.create 2).cumulativeRegrets ∧
    ((InformationSet.create 2).getStrategy 1).2.numActions
        = (InformationSet.create 2).numActions :=
  ⟨(claim_C10_get_strategy_side_effect (InformationSet.create 2) 1).2.2.1,
   (claim_C10_get_strategy_side_effect (InformationSet.create 2) 1).2.2.2.1⟩

/-! ## Claims about the reservoir buffer -/

/-- The buffer-length invariant of the reservoir `add` step. -/
theorem reservoir_add_length {α : Type} (rb : ReservoirBuffer α) (sample : α)
    (u : ℕ) (h : rb.buffer.length = min rb.count rb.maxSize) :
    (rb.add sample u).buffer.length = min (rb.count + 1) rb.maxSize ∧
    (rb.add sample u).count = rb.count + 1 := by
  unfold ReservoirBuffer.add
  split
  · refine ⟨?_, rfl⟩
    simp only [List.length_append, List.length_singleton]
    omega
  · split
    · refine ⟨?_, rfl⟩
      simp only [List.length_set]
      omega
    · refine ⟨?_, rfl⟩
      dsimp only
      omega

/-- Offering a stream to a buffer that satisfies the length invariant. -/
theorem reservoir_addSeq_length {α : Type} (offers : List (α × ℕ))
    (rb : ReservoirBuffer α) (h : rb.buffer.length = min rb.count rb.maxSize) :
    (rb.addSeq offers).buffer.length
      = min (rb.count + offers.length) rb.maxSize := by
  induction offers generalizing rb with
  | nil => simpa [ReservoirBuffer.addSeq] using h
  | cons p rest ih =>
      have hstep := reservoir_add_length rb p.1 p.2 h
      have hmax : (rb.add p.1 p.2).maxSize = rb.maxSize := by
        unfold ReservoirBuffer.add
        split
        · rfl
        · split <;> rfl
      have := ih (rb.add p.1 p.2)
        (by rw [hstep.1, hstep.2, hmax])
      simpa [ReservoirBuffer.addSeq, hstep.2, hmax,
        Nat.add_assoc, Nat.add_comm, Nat.add_left_comm]
        using this

/-- **C9**. The reservoir `add` step: below capacity the j-th offered sample
is appended; at capacity it overwrites `buffer[u]` exactly when the oracle
index `u` (drawn by `random.randint(0, count - 1)`, uniform on `[0, j)` for
the j-th offer) is below the capacity `M`, and is dropped otherwise;
consequently, starting from an empty buffer, after j offers the buffer holds
exactly `min(j, M)` samples. -/
theorem claim_C9_reservoir_buffer {α : Type} (rb : ReservoirBuffer α)
    (sample : α) (u : ℕ) :
    (rb.buffer.length < rb.maxSize →
      rb.add sample u
        = { rb with count := rb.count + 1, buffer := rb.buffer ++ [sample] }) ∧
    (¬ rb.buffer.length < rb.maxSize → u < rb.maxSize →
      rb.add sample u
        = { rb with count := rb.count + 1, buffer := rb.buffer.set u sample }) ∧
    (¬ rb.buffer.length < rb.maxSize → ¬ u < rb.maxSize →
      rb.add sample u = { rb with count := rb.count + 1 }) ∧
    (∀ (M : ℕ) (offers : List (α × ℕ)),
      ((ReservoirBuffer.empty α M).addSeq offers).buffer.length
        = min offers.length M) := by
  refine ⟨?_, ?_, ?_, ?_⟩
  · intro hlt
    unfold ReservoirBuffer.add
    rw [if_pos hlt]
  · intro hge hu
    unfold ReservoirBuffer.add
    rw [if_neg hge, if_pos hu]
  · intro hge hu
    unfold ReservoirBuffer.add
    rw [if_neg hge, if_neg hu]
  · intro M offers
    have := reservoir_addSeq_length offers (ReservoirBuffer.empty α M)
      (by simp [ReservoirBuffer.empty])
    simpa [ReservoirBuffer.empty] using this

/-- Witness for C9: a concrete append step and a concrete overwrite step. -/
theorem claim_C9_reservoir_buffer_witness :
    ((ReservoirBuffer.empty ℕ 1).buffer.length < 1 ∧
      (ReservoirBuffer.empty ℕ 1).add 7 0
        = ⟨1, [7], 1⟩) ∧
    (¬ (⟨1, [7], 1⟩ : ReservoirBuffer ℕ).buffer.length < 1 ∧ 0 < 1 ∧
      (⟨1, [7], 1⟩ : ReservoirBuffer ℕ).add 9 0 = ⟨1, [9], 2⟩) := by
  refine ⟨⟨by decide, ?_⟩, ⟨by decide, by decide, ?_⟩⟩
  · exact (claim_C9_reservoir_buffer (ReservoirBuffer.empty ℕ 1) 7 0).1
      (by decide)
  · exact (claim_C9_reservoir_buffer (⟨1, [7], 1⟩ : ReservoirBuffer ℕ) 9 0).2.1
      (by decide) (by decide)

/-! ## Claim C5: chip conservation -/

/-- `_showdown` touches only the terminal flag and the winner. -/
theorem showdown_chips {s s' : GameState} (h : s.showdown = some s') :
    s'.pot = s.pot ∧ s'.playerStacks = s.playerStacks := by
  unfold GameState.showdown at h
  split at h
  · simp only [Option.some.injEq] at h
    subst h
    exact ⟨rfl, rfl⟩
  · simp at h

/-- `_run_out_board` touches the board and the showdown fields only. -/
theorem runOutBoard_chips {s s' : GameState} {runout : List PCard}
    (h : s.runOutBoard runout = some s') :
    s'.pot = s.pot ∧ s'.playerStacks = s.playerStacks := by
  unfold GameState.runOutBoard at h
  dsimp only at h
  split at h
  · split at h
    · simp at h
    · have hc := showdown_chips h
      exact hc
  · exact showdown_chips h

/-- `_advance_street` resets the round bookkeeping but moves no chips. -/
theorem advanceStreet_chips {s s' : GameState} {runout : List PCard}
    (h : s.advanceStreet runout = some s') :
    s'.pot = s.pot ∧ s'.playerStacks = s.playerStacks := by
  unfold GameState.advanceStreet at h
  dsimp only at h
  split at h
  · have hc := runOutBoard_chips h
    exact hc
  · split at h
    · have hc := showdown_chips h
      exact hc
    · simp only [Option.some.injEq] at h
      subst h
      exact ⟨rfl, rfl⟩

/-- One `apply_action` step preserves pot + stack₀ + stack₁. -/
theorem applyAction_chips {s s' : GameState} {a : Action}
    {runout : List PCard} (h : s.applyAction a runout = some s') :
    s'.pot + s'.playerStacks.1 + s'.playerStacks.2
      = s.pot + s.playerStacks.1 + s.playerStacks.2 := by
  unfold GameState.applyAction at h
  cases a with
  | fold =>
      dsimp only at h
      simp only [Option.some.injEq] at h
      subst h
      rfl
  | check =>
      dsimp only at h
      split at h
      · have hc := advanceStreet_chips h
        rw [hc.1, hc.2]
      · simp only [Option.some.injEq] at h
        subst h
        rfl
  | call =>
      dsimp only at h
      have hc := advanceStreet_chips h
      rw [hc.1, hc.2]
      dsimp only
      by_cases hp : s.currentPlayer = 0 <;> simp [setP, getP, hp] <;> ring
  | bet amount =>
      dsimp only at h
      simp only [Option.some.injEq] at h
      subst h
      dsimp only
      by_cases hp : s.currentPlayer = 0 <;> simp [setP, getP, hp] <;> ring
  | raiseTo amount =>
      dsimp only at h
      simp only [Option.some.injEq] at h
      subst h
      dsimp only
      by_cases hp : s.currentPlayer = 0 <;> simp [setP, getP, hp] <;> ring
  | allIn amount =>
      dsimp only at h
      split at h
      · simp only [Option.some.injEq] at h
        subst h
        dsimp only
        by_cases hp : s.currentPlayer = 0 <;> simp [setP, getP, hp] <;> ring
      · have hc := advanceStreet_chips h
        rw [hc.1, hc.2]
        dsimp only
        by_cases hp : s.currentPlayer = 0 <;> simp [setP, getP, hp] <;> ring

/-- **C5**. Chip conservation: `new_hand` moves the blinds from the stacks
into the pot, so pot + stack₀ + stack₁ equals the sum of the starting
stacks, and every `apply_action` step (any action, any deck oracle)
preserves that sum; hence it holds in every reachable state. -/
theorem claim_C5_chip_conservation (holeCards : List PCard × List PCard)
    (stack0 stack1 bigBlind : ℤ) (s : GameState)
    (h : Reachable (newHand holeCards (stack0, stack1) bigBlind) s) :
    s.pot + s.playerStacks.1 + s.playerStacks.2 = stack0 + stack1 := by
  induction h with
  | refl =>
      dsimp only [newHand]
      ring
  | step hr hstep ih =>
      rw [applyAction_chips hstep, ih]

/-- Witness for C5: the freshly dealt hand with stacks 200/200 and big blind
2 carries 3 + 199 + 198 = 400 chips. -/
theorem claim_C5_chip_conservation_witness :
    (newHand ([⟨14, 0⟩, ⟨13, 0⟩], [⟨12, 1⟩, ⟨11, 1⟩]) (200, 200) 2).pot
      + (newHand ([⟨14, 0⟩, ⟨13, 0⟩], [⟨12, 1⟩, ⟨11, 1⟩]) (200, 200) 2).playerStacks.1
      + (newHand ([⟨14, 0⟩, ⟨13, 0⟩], [⟨12, 1⟩, ⟨11, 1⟩]) (200, 200) 2).playerStacks.2
      = 200 + 200 :=
  claim_C5_chip_conservation ([⟨14, 0⟩, ⟨13, 0⟩], [⟨12, 1⟩, ⟨11, 1⟩])
    200 200 2 _ Reachable.refl

/-! ## Claim C7: the wheel -/

/-- Sorting any permutation of a sorted target yields the target. -/
theorem sortAsc_eq_of_perm {l target : List ℤ} (hp : l.Perm target)
    (hs : target.Sorted (· ≤ ·)) : sortAsc l = target :=
  List.eq_of_perm_of_sorted ((List.perm_insertionSort _ l).trans hp)
    (List.sorted_insertionSort _ l) hs

/-- **C7**. Any 5-card input whose rank multiset is {A,2,3,4,5} and whose
suits are not all equal evaluates to a Straight with the wheel counted
5-high: absolute rank 5854, the lowest straight slot — and every straight
with high card 6 through A (the A-high slot included) ranks strictly
higher. -/
theorem claim_C7_wheel_is_five_high_straight (cards : List PCard)
    (hranks : (cards.map PCard.rank).Perm [2, 3, 4, 5, 14])
    (hsuits : isFlushCards cards = false) :
    evaluateFiveCards cards = ⟨5854, .straight⟩ ∧
    (∀ highCard : ℤ, 6 ≤ highCard → highCard ≤ 14 →
      5854 < baseRank .straight + calculateStraightRank highCard) := by
  constructor
  · have hv : cardValues cards = [2, 3, 4, 5, 14] :=
      sortAsc_eq_of_perm hranks (by decide)
    unfold evaluateFiveCards
    rw [hv, hsuits]
    decide
  · intro highCard h6 h14
    unfold calculateStraightRank
    rw [show baseRank .straight = 5853 from rfl, if_neg (by omega)]
    omega

/-- Witness for C7: the wheel Ah 2d 3c 4s 5h. -/
theorem claim_C7_wheel_witness :
    evaluateFiveCards [⟨14, 1⟩, ⟨2, 2⟩, ⟨3, 3⟩, ⟨4, 0⟩, ⟨5, 1⟩]
      = ⟨5854, .straight⟩ :=
  (claim_C7_wheel_is_five_high_straight
    [⟨14, 1⟩, ⟨2, 2⟩, ⟨3, 3⟩, ⟨4, 0⟩, ⟨5, 1⟩] (by decide) (by decide)).1

/-! ## Claim C8: preflop bucketing -/

/-- The canonical key depends on the hole cards only through the descending
rank pair and the suited test. -/
theorem canonicalKey_eq (c1 c2 : PCard) :
    canonicalKey c1 c2
      = (max c1.rank c2.rank, min c1.rank c2.rank,
          if c1.rank = c2.rank then false else decide (c1.suit = c2.suit)) := by
  unfold canonicalKey
  by_cases hlt : c1.rank < c2.rank
  · simp only [if_pos hlt]
    rw [max_eq_right hlt.le, min_eq_left hlt.le,
      if_neg (show ¬ c2.rank = c1.rank by omega),
      if_neg (show ¬ c1.rank = c2.rank by omega)]
    simp only [Prod.mk.injEq, true_and]
    exact decide_eq_decide.mpr eq_comm
  · simp only [if_neg hlt]
    rw [max_eq_left (show c2.rank ≤ c1.rank by omega),
      min_eq_right (show c2.rank ≤ c1.rank by omega)]
    by_cases heq : c1.rank = c2.rank
    · rw [if_pos heq, if_pos heq]
    · rw [if_neg heq, if_neg heq]

set_option maxRecDepth 8000 in
/-- Every entry of the 169-hand table is found at its own index (the list has
no duplicates). -/
theorem handRankings_findIdx :
    ∀ i : Fin handRankings.length,
      handRankings.findIdx? (fun h => h == handRankings.get i)
        = some i.val := by decide

/-- **C8**. Preflop bucketing is canonical-form invariant: two holdings with
the same descending rank pair and the same suited status receive equal
buckets (for example As Kh and Ad Kc), and under `B ≤ 169` buckets the hand
at index i of the 169-entry ordering is assigned bucket `i * B / 169`
(integer floor division). -/
theorem claim_C8_preflop_bucket_invariance :
    (∀ (c1 c2 d1 d2 : PCard) (preflopBuckets : ℕ),
      max c1.rank c2.rank = max d1.rank d2.rank →
      min c1.rank c2.rank = min d1.rank d2.rank →
      ((c1.suit = c2.suit) ↔ (d1.suit = d2.suit)) →
      preflopBucket preflopBuckets [c1, c2]
        = preflopBucket preflopBuckets [d1, d2]) ∧
    (∀ preflopBuckets : ℕ, preflopBuckets ≤ 169 →
      ∀ i : Fin handRankings.length,
        tableBucket preflopBuckets (handRankings.get i)
          = i.val * preflopBuckets / 169) := by
  constructor
  · intro c1 c2 d1 d2 B hmax hmin hsuit
    have hkey : canonicalKey c1 c2 = canonicalKey d1 d2 := by
      rw [canonicalKey_eq, canonicalKey_eq, hmax, hmin]
      have hcond : (c1.rank = c2.rank) ↔ (d1.rank = d2.rank) := by
        constructor <;> intro h <;> omega
      by_cases h : c1.rank = c2.rank
      · rw [if_pos h, if_pos (hcond.mp h)]
      · rw [if_neg h, if_neg (fun hh => h (hcond.mpr hh))]
        simp only [Prod.mk.injEq, true_and]
        exact decide_eq_decide.mpr hsuit
    simp only [preflopBucket, hkey]
  · intro B hB i
    unfold tableBucket
    rw [handRankings_findIdx i]
    dsimp only
    rw [Nat.min_eq_left hB]

set_option maxRecDepth 8000 in
/-- Witness for C8: As Kh and Ad Kc bucket equally, and the top-ranked hand
AA (index 0) lands in bucket 0 under 169 buckets. -/
theorem claim_C8_preflop_bucket_invariance_witness :
    preflopBucket 169 [⟨14, 0⟩, ⟨13, 1⟩] = preflopBucket 169 [⟨14, 2⟩, ⟨13, 3⟩] ∧
    tableBucket 169 (handRankings.get ⟨0, by decide⟩) = 0 * 169 / 169 :=
  ⟨(claim_C8_preflop_bucket_invariance).1 ⟨14, 0⟩ ⟨13, 1⟩ ⟨14, 2⟩ ⟨13, 3⟩ 169
      (by decide) (by decide) (by decide),
   (claim_C8_preflop_bucket_invariance).2 169 (by omega) ⟨0, by decide⟩⟩

/-! ## Claim C4: monotonicity of the absolute-rank mapping -/

/-- Sorting an already descending list is the identity. -/
theorem sortDesc_of_sorted {l : List ℤ} (h : List.Sorted (· ≥ ·) l) :
    sortDesc l = l :=
  h.insertionSort_eq

/-- Truncating division (Python `int(·)` of a ratio) is monotone in the
numerator for a positive divisor. -/
theorem tdiv_le_tdiv_of_le {a b c : ℤ} (hc : 0 < c) (h : a ≤ b) :
    a.tdiv c ≤ b.tdiv c := by
  rcases le_or_lt 0 a with ha | ha
  · rw [Int.tdiv_eq_ediv ha hc.le, Int.tdiv_eq_ediv (ha.trans h) hc.le]
    exact Int.ediv_le_ediv hc h
  · rcases le_or_lt 0 b with hb | hb
    · have h0 := Int.neg_tdiv (-a) c
      rw [neg_neg] at h0
      have h1 := Int.tdiv_nonneg (by omega : (0:ℤ) ≤ -a) hc.le
      have h2 : (0:ℤ) ≤ b.tdiv c := Int.tdiv_nonneg hb hc.le
      omega
    · have key : (-b).tdiv c ≤ (-a).tdiv c := by
        rw [Int.tdiv_eq_ediv (by omega) hc.le, Int.tdiv_eq_ediv (by omega) hc.le]
        exact Int.ediv_le_ediv hc (by omega)
      have h0 := Int.neg_tdiv (-a) c
      rw [neg_neg] at h0
      have h1 := Int.neg_tdiv (-b) c
      rw [neg_neg] at h1
      omega

/-- `_normalize_to_range` is weakly monotone in the encoded value (for a
non-empty target range). -/
theorem normalizeToRange_mono {e1 e2 minP maxP tmin tmax : ℤ}
    (h : e1 ≤ e2) (hr : 0 ≤ tmax - tmin) :
    normalizeToRange e1 minP maxP tmin tmax
      ≤ normalizeToRange e2 minP maxP tmin tmax := by
  unfold normalizeToRange
  split
  · exact le_refl _
  · rename_i hlt
    push_neg at hlt
    have hmono := tdiv_le_tdiv_of_le (c := maxP - minP) (by omega)
      (mul_le_mul_of_nonneg_right (by omega : e1 - minP ≤ e2 - minP) hr)
    omega

/-- **C4** (counterexample). Two one-pair hands, 3-3-6-5-4 and 3-3-6-5-2,
whose rank tuples differ — the first is obtained from the second by swapping
the kicker 2 for a 4 not in the hand, and is lexicographically stronger —
receive the *same* absolute rank 1521: the proportional map of
`_normalize_to_range` collapses nearby tuples, so the mapping is not
strictly monotone. -/
theorem claim_C4_counterexample :
    evaluateFiveCards [⟨3, 1⟩, ⟨3, 2⟩, ⟨6, 0⟩, ⟨5, 0⟩, ⟨4, 0⟩]
      = evaluateFiveCards [⟨3, 1⟩, ⟨3, 2⟩, ⟨6, 0⟩, ⟨5, 0⟩, ⟨2, 0⟩] ∧
    evaluateFiveCards [⟨3, 1⟩, ⟨3, 2⟩, ⟨6, 0⟩, ⟨5, 0⟩, ⟨4, 0⟩]
      = ⟨1521, .onePair⟩ := by decide

/-- **C4** (amended). Within each kicker-using category the absolute-rank
mapping is *weakly* monotone in the distinguishing rank tuple: a
lexicographically stronger tuple receives a greater-or-equal (not strictly
greater) rank within the category; in particular swapping a kicker for a
strictly higher rank never decreases the rank, but ties between distinct
tuples occur. Tuples are given most-significant first (descending, as the
source builds them) with card values in 2..14. The five conjuncts cover
high-card, flush, one-pair, two-pair and three-of-a-kind. -/
theorem claim_C4_weak_monotonicity :
    (∀ v1 v2 v3 v4 v5 w1 w2 w3 w4 w5 : ℤ,
      (2 ≤ v5 ∧ v5 ≤ v4 ∧ v4 ≤ v3 ∧ v3 ≤ v2 ∧ v2 ≤ v1 ∧ v1 ≤ 14) →
      (2 ≤ w5 ∧ w5 ≤ w4 ∧ w4 ≤ w3 ∧ w3 ≤ w2 ∧ w2 ≤ w1 ∧ w1 ≤ 14) →
      (v1 < w1 ∨ (v1 = w1 ∧ (v2 < w2 ∨ (v2 = w2 ∧ (v3 < w3 ∨ (v3 = w3 ∧
        (v4 < w4 ∨ (v4 = w4 ∧ v5 ≤ w5)))))))) →
      calculateHighCardRank [v1, v2, v3, v4, v5]
        ≤ calculateHighCardRank [w1, w2, w3, w4, w5]) ∧
    (∀ v1 v2 v3 v4 v5 w1 w2 w3 w4 w5 : ℤ,
      (2 ≤ v5 ∧ v5 ≤ v4 ∧ v4 ≤ v3 ∧ v3 ≤ v2 ∧ v2 ≤ v1 ∧ v1 ≤ 14) →
      (2 ≤ w5 ∧ w5 ≤ w4 ∧ w4 ≤ w3 ∧ w3 ≤ w2 ∧ w2 ≤ w1 ∧ w1 ≤ 14) →
      (v1 < w1 ∨ (v1 = w1 ∧ (v2 < w2 ∨ (v2 = w2 ∧ (v3 < w3 ∨ (v3 = w3 ∧
        (v4 < w4 ∨ (v4 = w4 ∧ v5 ≤ w5)))))))) →
      calculateFlushRank [v1, v2, v3, v4, v5]
        ≤ calculateFlushRank [w1, w2, w3, w4, w5]) ∧
    (∀ p k1 k2 k3 q j1 j2 j3 : ℤ,
      (2 ≤ p ∧ p ≤ 14 ∧ 2 ≤ k3 ∧ k3 ≤ k2 ∧ k2 ≤ k1 ∧ k1 ≤ 14) →
      (2 ≤ q ∧ q ≤ 14 ∧ 2 ≤ j3 ∧ j3 ≤ j2 ∧ j2 ≤ j1 ∧ j1 ≤ 14) →
      (p < q ∨ (p = q ∧ (k1 < j1 ∨ (k1 = j1 ∧ (k2 < j2 ∨ (k2 = j2 ∧
        k3 ≤ j3)))))) →
      calculateOnePairRank p [k1, k2, k3] ≤ calculateOnePairRank q [j1, j2, j3]) ∧
    (∀ hp lp k hq lq j : ℤ,
      (2 ≤ hp ∧ hp ≤ 14 ∧ 2 ≤ lp ∧ lp ≤ 14 ∧ 2 ≤ k ∧ k ≤ 14) →
      (2 ≤ hq ∧ hq ≤ 14 ∧ 2 ≤ lq ∧ lq ≤ 14 ∧ 2 ≤ j ∧ j ≤ 14) →
      (hp < hq ∨ (hp = hq ∧ (lp < lq ∨ (lp = lq ∧ k ≤ j)))) →
      calculateTwoPairRank hp lp k ≤ calculateTwoPairRank hq lq j) ∧
    (∀ t k1 k2 u j1 j2 : ℤ,
      (2 ≤ t ∧ t ≤ 14 ∧ 2 ≤ k2 ∧ k2 ≤ k1 ∧ k1 ≤ 14) →
      (2 ≤ u ∧ u ≤ 14 ∧ 2 ≤ j2 ∧ j2 ≤ j1 ∧ j1 ≤ 14) →
      (t < u ∨ (t = u ∧ (k1 < j1 ∨ (k1 = j1 ∧ k2 ≤ j2)))) →
      calculateThreeOfKindRank t [k1, k2] ≤ calculateThreeOfKindRank u [j1, j2]) := by
  refine ⟨?_, ?_, ?_, ?_, ?_⟩
  · intro v1 v2 v3 v4 v5 w1 w2 w3 w4 w5 hb hbw hlex
    unfold calculateHighCardRank
    rw [sortDesc_of_sorted (by simp [List.sorted_cons]; omega),
      sortDesc_of_sorted (by simp [List.sorted_cons]; omega)]
    apply normalizeToRange_mono ?_ (by norm_num)
    simp only [encodeCardValues, List.length_cons, List.length_nil]
    norm_num
    omega
  · intro v1 v2 v3 v4 v5 w1 w2 w3 w4 w5 hb hbw hlex
    unfold calculateFlushRank
    rw [sortDesc_of_sorted (by simp [List.sorted_cons]; omega),
      sortDesc_of_sorted (by simp [List.sorted_cons]; omega)]
    apply normalizeToRange_mono ?_ (by norm_num)
    simp only [encodeCardValues, List.length_cons, List.length_nil]
    norm_num
    omega
  · intro p k1 k2 k3 q j1 j2 j3 hb hbw hlex
    unfold calculateOnePairRank
    rw [show ([k1, k2, k3] : List ℤ).take 3 = [k1, k2, k3] from rfl,
      show ([j1, j2, j3] : List ℤ).take 3 = [j1, j2, j3] from rfl,
      sortDesc_of_sorted (by simp [List.sorted_cons]; omega),
      sortDesc_of_sorted (by simp [List.sorted_cons]; omega)]
    apply normalizeToRange_mono ?_ (by norm_num)
    simp only [encodeCardValues, List.length_cons, List.length_nil]
    norm_num
    omega
  · intro hp lp k hq lq j hb hbw hlex
    unfold calculateTwoPairRank
    apply normalizeToRange_mono ?_ (by norm_num)
    simp only [encodeCardValues, List.length_cons, List.length_nil]
    norm_num
    omega
  · intro t k1 k2 u j1 j2 hb hbw hlex
    unfold calculateThreeOfKindRank
    rw [show ([k1, k2] : List ℤ).take 2 = [k1, k2] from rfl,
      show ([j1, j2] : List ℤ).take 2 = [j1, j2] from rfl,
      sortDesc_of_sorted (by simp [List.sorted_cons]; omega),
      sortDesc_of_sorted (by simp [List.sorted_cons]; omega)]
    apply normalizeToRange_mono ?_ (by norm_num)
    simp only [encodeCardValues, List.length_cons, List.length_nil]
    norm_num
    omega

/-- Witness for C4 (amended): the tuples of the counterexample hands, in
both lexicographic directions around the tie. -/
theorem claim_C4_weak_monotonicity_witness :
    calculateOnePairRank 3 [6, 5, 2] ≤ calculateOnePairRank 3 [6, 5, 4] :=
  (claim_C4_weak_monotonicity).2.2.1 3 6 5 2 3 6 5 4 (by norm_num)
    (by norm_num) (by omega)

end MakoPoker
